import Mathlib

/-!
Verification of the phase-based reconciliation engine and the
admission-validation dispatcher of the k8s-cloud-connectors repository.

The definitions below are a shallow embedding of:
 - the YandexObjectStorage reconciler (`Reconcile`, `mustBeFinalized`,
   `finalize` and the forward phase walk),
 - the validating webhook dispatcher (`Handle`, `handleValidationError`),
 - the StaticAccessKey validator (`ValidateCreation`, `ValidateUpdate`,
   `ValidateDeletion`).

External collaborators (the resource store, the decoder, controller-runtime
admission responses, the config result constructors and the ValidationError
type from the webhook package) are not part of the provided sources; they
are modelled from the specification where noted.
-/

namespace CloudConnectors

/-- Modelled from the spec: the error taxonomy. `ValidationError is a
distinct error kind (not a plain formatted error)` checked `by structural
type/kind check`, carrying a human-readable reason; every other error is a
plain error.  `validation msg` models `NewValidationError(fmt.Errorf(msg))`
from the webhook package (its source file is not among the provided files);
`plain msg` models an ordinary `fmt.Errorf` error. -/
inductive GoError where
  | validation (msg : String)
  | plain (msg : String)
deriving DecidableEq, Repr

/-- The `Error()` method: the human-readable message of an error. -/
def GoError.message : GoError → String
  | .validation m => m
  | .plain m => m

/-- Modelled from the spec: `errors.Is(err, ValidationError{})` — detection
of the ValidationError kind is `a tagged variant / discriminated error kind
checked by a kind tag, not by string content`. -/
def GoError.isValidation : GoError → Bool
  | .validation _ => true
  | .plain _ => false

/-- Modelled from the spec: the admission dispatch result exposed to the
webhook transport — `allowed`, `denied(reason)`, or an errored response
carrying a transport status code (400 for client errors, 500 for server
errors) and a message.  `allowed` and `denied` model `admission.Allowed`
and `admission.Denied`; `errored` models `admission.Errored(code, err)`. -/
inductive AdmissionResponse where
  | allowed (reason : String)
  | denied (reason : String)
  | errored (code : Nat) (msg : String)
deriving DecidableEq, Repr

/-- The constant `http.StatusBadRequest`. -/
def statusBadRequest : Nat := 400

/-- The constant `http.StatusInternalServerError`. -/
def statusInternalServerError : Nat := 500

/-- The operation kind of an admission request (`req.Operation`):
`v1.Create`, `v1.Update`, `v1.Delete`, or any other operation string. -/
inductive Operation where
  | create
  | update
  | delete
  | other (s : String)
deriving DecidableEq, Repr

/-- The operation string used by `fmt.Errorf("invalid request operation: %s",
req.Operation)` in the default case of `Handle`. -/
def Operation.name : Operation → String
  | .create => "CREATE"
  | .update => "UPDATE"
  | .delete => "DELETE"
  | .other s => s

/-- An admission request: the operation kind, the new-object payload
(`req.Object`) and the previous-object payload (`req.OldObject`), with the
wire payload type `Raw` kept abstract. -/
structure AdmissionRequest (Raw : Type) where
  operation : Operation
  object : Raw
  oldObject : Raw

/-- The Validator interface: one method per admission operation, returning
`none` for nil error.  The context and logger arguments of the Go interface
carry no semantic content and are dropped. -/
structure Validator (Obj : Type) where
  validateCreation : Obj → Option GoError
  validateUpdate : Obj → Obj → Option GoError
  validateDeletion : Obj → Option GoError

/-- Observable events of one dispatch: each decode attempt (with the payload
it was given) and each Validator method invocation. -/
inductive DispatchEvent (Raw : Type) where
  | decodeAttempt (payload : Raw)
  | validateCreationCall
  | validateUpdateCall
  | validateDeletionCall
deriving DecidableEq, Repr

/-- Whether a dispatch event is an invocation of the Validator. -/
def DispatchEvent.isValidatorCall {Raw : Type} : DispatchEvent Raw → Bool
  | .decodeAttempt _ => false
  | .validateCreationCall => true
  | .validateUpdateCall => true
  | .validateDeletionCall => true

/-- Function `handleValidationError` from `src/pkg/webhook/validating_handler.go`:
a non-nil error that is-a ValidationError yields a denied response with the
error message as reason; any other non-nil error yields
`admission.Errored(http.StatusInternalServerError, err)`; a nil error
yields `admission.Allowed("")`. -/
def handleValidationError : Option GoError → AdmissionResponse
  | some err =>
    if err.isValidation then AdmissionResponse.denied err.message
    else AdmissionResponse.errored statusInternalServerError err.message
  | none => AdmissionResponse.allowed ""

/-- Function `Handle` from `src/pkg/webhook/validating_handler.go`: dispatch on the
operation kind, decode the payload(s) for that kind (create: the new object;
update: the new then the old object; delete: the old object), respond
`admission.Errored(http.StatusBadRequest, err)` on a decode failure, and
otherwise classify the Validator result with `handleValidationError`.  The
decoder is an external collaborator, passed as the function `decode`; the
returned list records the decode attempts and Validator invocations in
order. -/
def Handle {Raw Obj : Type} (decode : Raw → Except String Obj)
    (validator : Validator Obj) (req : AdmissionRequest Raw) :
    AdmissionResponse × List (DispatchEvent Raw) :=
  match req.operation with
  | .create =>
    match decode req.object with
    | .error e =>
      (AdmissionResponse.errored statusBadRequest e,
       [DispatchEvent.decodeAttempt req.object])
    | .ok obj =>
      (handleValidationError (validator.validateCreation obj),
       [DispatchEvent.decodeAttempt req.object,
        DispatchEvent.validateCreationCall])
  | .update =>
    match decode req.object with
    | .error e =>
      (AdmissionResponse.errored statusBadRequest e,
       [DispatchEvent.decodeAttempt req.object])
    | .ok obj =>
      match decode req.oldObject with
      | .error e =>
        (AdmissionResponse.errored statusBadRequest e,
         [DispatchEvent.decodeAttempt req.object,
          DispatchEvent.decodeAttempt req.oldObject])
      | .ok old =>
        (handleValidationError (validator.validateUpdate obj old),
         [DispatchEvent.decodeAttempt req.object,
          DispatchEvent.decodeAttempt req.oldObject,
          DispatchEvent.validateUpdateCall])
  | .delete =>
    match decode req.oldObject with
    | .error e =>
      (AdmissionResponse.errored statusBadRequest e,
       [DispatchEvent.decodeAttempt req.oldObject])
    | .ok obj =>
      (handleValidationError (validator.validateDeletion obj),
       [DispatchEvent.decodeAttempt req.oldObject,
        DispatchEvent.validateDeletionCall])
  | .other s =>
    (AdmissionResponse.errored statusBadRequest
      ("invalid request operation: " ++ s), [])

/-- The spec of a StaticAccessKey: the fields the validator reads.
`ServiceAccountID` is the immutable bound service account. -/
structure StaticAccessKeySpec where
  serviceAccountID : String
deriving DecidableEq, Repr

/-- A StaticAccessKey object (`v1.StaticAccessKey`): its name and spec. -/
structure StaticAccessKey where
  name : String
  spec : StaticAccessKeySpec
deriving DecidableEq, Repr

/-- A `runtime.Object` as seen by the SAKey validator: either a
StaticAccessKey, or an object of some other dynamic type (the runtime cast
`obj.(*v1.StaticAccessKey)` fails on the latter). -/
inductive RuntimeObject where
  | staticAccessKey (k : StaticAccessKey)
  | otherObject (tag : String)
deriving DecidableEq, Repr

/-- The error message of a failed cast in the SAKey validator. -/
def sakeyCastError : GoError :=
  GoError.plain "object is not of the StaticAccessKey type"

/-- Method `SAKeyValidator.ValidateCreation` from
`src/connector/sakey/webhook/validating.go`: a failed cast returns a plain
error; any StaticAccessKey is accepted (nil error). -/
def sakeyValidateCreation : RuntimeObject → Option GoError
  | .staticAccessKey _ => none
  | .otherObject _ => some sakeyCastError

/-- Method `SAKeyValidator.ValidateUpdate` from
`src/connector/sakey/webhook/validating.go`: cast both objects (current
first, then old; a failed cast returns a plain error); if the new spec's
ServiceAccountID differs from the old one, return a ValidationError whose
message names the old and the new value; otherwise nil. -/
def sakeyValidateUpdate : RuntimeObject → RuntimeObject → Option GoError
  | .otherObject _, _ => some sakeyCastError
  | .staticAccessKey _, .otherObject _ => some sakeyCastError
  | .staticAccessKey current, .staticAccessKey old =>
    if current.spec.serviceAccountID ≠ old.spec.serviceAccountID then
      some (GoError.validation
        ("binded service account must be immutable, was changed from "
          ++ old.spec.serviceAccountID ++ " to "
          ++ current.spec.serviceAccountID))
    else
      none

/-- Method `SAKeyValidator.ValidateDeletion` from
`src/connector/sakey/webhook/validating.go`: a failed cast returns a plain
error; any StaticAccessKey may be deleted (nil error). -/
def sakeyValidateDeletion : RuntimeObject → Option GoError
  | .staticAccessKey _ => none
  | .otherObject _ => some sakeyCastError

/-- The `SAKeyValidator` packaged as a `Validator`. -/
def SAKeyValidator : Validator RuntimeObject where
  validateCreation := sakeyValidateCreation
  validateUpdate := sakeyValidateUpdate
  validateDeletion := sakeyValidateDeletion

/-- A YandexObjectStorage resource record as the reconciler reads it:
whether `DeletionTimestamp.IsZero()` holds, the `Finalizers` list, and an
opaque status payload that phases may mutate. -/
structure Resource where
  deletionTimestampIsZero : Bool
  finalizers : List String
  status : List String
deriving DecidableEq, Repr

/-- Function `util.ContainsString`: membership of a string in a string slice (the
util package is not among the provided files; the membership test is the
only behavior the reconciler relies on). -/
def containsString (slice : List String) (s : String) : Bool :=
  slice.contains s

/-- A `phase.YandexObjectStoragePhase` interface value: `IsUpdated` checks
convergence (it receives a pointer to the resource, so it may also return a
mutated record), `Update` applies the convergence action, `Cleanup` undoes
it; each may fail with an error. -/
structure Phase where
  isUpdated : Resource → Except String (Bool × Resource)
  update : Resource → Except String Resource
  cleanup : Resource → Except String Resource

/-- Observable events of one reconcile invocation: which phase methods were
invoked, identified by the phase's index in the configured sequence. -/
inductive PhaseEvent where
  | isUpdatedCall (i : Nat)
  | updateCall (i : Nat)
  | cleanupCall (i : Nat)
deriving DecidableEq, Repr

/-- Whether a phase event is an invocation of some phase's `Update`. -/
def PhaseEvent.isUpdateCall : PhaseEvent → Bool
  | .isUpdatedCall _ => false
  | .updateCall _ => true
  | .cleanupCall _ => false

/-- Modelled from the spec: the invocation result exposed to the trigger
layer — `normal` for `config.GetNormalResult()` (done, no fault),
`never` for `config.GetNeverResult()` (no action, resource gone, no retry
needed), `errored msg` for `config.GetErroredResult(err)` (system fault,
reported upward for retry); the config package is not among the provided
files. -/
inductive ReconcileResult where
  | normal
  | never
  | errored (msg : String)
deriving DecidableEq, Repr

/-- Modelled from the spec: the outcome of the resource store's `get` —
the resource, a not-found error, or any other error; the store is an
external collaborator. -/
inductive GetResult where
  | found (r : Resource)
  | notFound (msg : String)
  | otherError (msg : String)
deriving DecidableEq, Repr

/-- Function `mustBeFinalized` from the reconciler source: true iff the deletion
timestamp is set (`!registry.DeletionTimestamp.IsZero()`) and the finalizer
marker is among the resource's finalizers; the error component is always
nil. -/
def mustBeFinalized (finalizerName : String) (registry : Resource) :
    Bool × Option String :=
  (!registry.deletionTimestampIsZero
     && containsString registry.finalizers finalizerName, none)

/-- The loop body of `finalize`: Go iterates `i` from `len(phases)` down to
`1`, calling `phases[i-1].Cleanup` and returning the first error wrapped as
`"error during finalization: %v"`.  Here the first argument is Go's `i`;
`phases[i-1]` of the Go source is `phases[i]?` applied at `i` after the
pattern `i + 1`. -/
def finalizeAux (phases : List Phase) :
    Nat → Resource → Except String Resource × List PhaseEvent
  | 0, registry => (Except.ok registry, [])
  | i + 1, registry =>
    match phases[i]? with
    | none => (Except.ok registry, [])
    | some p =>
      match p.cleanup registry with
      | .error e =>
        (Except.error ("error during finalization: " ++ e),
         [PhaseEvent.cleanupCall i])
      | .ok registry1 =>
        let rest := finalizeAux phases i registry1
        (rest.1, PhaseEvent.cleanupCall i :: rest.2)

/-- Function `finalize` from the reconciler source: run every phase's `Cleanup` in
reverse order of the configured sequence, stopping at the first error. -/
def finalize (phases : List Phase) (registry : Resource) :
    Except String Resource × List PhaseEvent :=
  finalizeAux phases phases.length registry

/-- The forward loop of `Reconcile` (`for _, updater := range r.phases`):
for each phase in configured order call `IsUpdated`; on error stop with
that error; if not yet updated call `Update`; on error stop with that
error; otherwise continue with the next phase.  The `i` argument is the
index of the head phase in the configured sequence. -/
def phaseWalk : List Phase → Nat → Resource →
    Except String Resource × List PhaseEvent
  | [], _, resource => (Except.ok resource, [])
  | p :: ps, i, resource =>
    match p.isUpdated resource with
    | .error e => (Except.error e, [PhaseEvent.isUpdatedCall i])
    | .ok (isInitialized, resource1) =>
      if isInitialized then
        let rest := phaseWalk ps (i + 1) resource1
        (rest.1, PhaseEvent.isUpdatedCall i :: rest.2)
      else
        match p.update resource1 with
        | .error e =>
          (Except.error e,
           [PhaseEvent.isUpdatedCall i, PhaseEvent.updateCall i])
        | .ok resource2 =>
          let rest := phaseWalk ps (i + 1) resource2
          (rest.1,
           PhaseEvent.isUpdatedCall i :: PhaseEvent.updateCall i :: rest.2)

/-- The common tail of `Reconcile`'s finalize and forward-walk branches:
`return config.GetErroredResult(err)` on an error, `return
config.GetNormalResult()` on success, keeping the recorded phase events. -/
def toResult : Except String Resource × List PhaseEvent →
    ReconcileResult × List PhaseEvent
  | (.error e, events) => (ReconcileResult.errored e, events)
  | (.ok _, events) => (ReconcileResult.normal, events)

/-- Function `Reconcile` from the reconciler source: load the resource (not-found
stops with `GetNeverResult`, any other load error with
`GetErroredResult`); if `mustBeFinalized` reported an error, stop with
`GetErroredResult` (its error is in fact always nil); if the resource must
be finalized, run `finalize` and stop (`GetErroredResult` on failure,
`GetNormalResult` on success); otherwise walk the phases forward and stop
(`GetErroredResult` on failure, `GetNormalResult` on success).  The store's
answer is passed in as `getResult`; the returned list records the phase
method invocations in order. -/
def Reconcile (phases : List Phase) (finalizerName : String)
    (getResult : GetResult) : ReconcileResult × List PhaseEvent :=
  match getResult with
  | .notFound _ => (ReconcileResult.never, [])
  | .otherError e => (ReconcileResult.errored e, [])
  | .found resource =>
    match mustBeFinalized finalizerName resource with
    | (_, some e) => (ReconcileResult.errored e, [])
    | (must, none) =>
      if must then toResult (finalize phases resource)
      else toResult (phaseWalk phases 0 resource)

/-! Concrete fixtures used to exercise the definitions at specific inputs. -/

/-- A phase that is never yet converged and whose `Update` and `Cleanup`
always succeed without touching the resource. -/
def phaseBehind : Phase where
  isUpdated := fun r => Except.ok (false, r)
  update := fun r => Except.ok r
  cleanup := fun r => Except.ok r

/-- A phase whose `Cleanup` fails. -/
def phaseBadCleanup : Phase where
  isUpdated := fun r => Except.ok (true, r)
  update := fun r => Except.ok r
  cleanup := fun _ => Except.error "cloud adapter unavailable"

/-- A live resource: deletion not requested, no finalizers. -/
def resLive : Resource := ⟨true, [], []⟩

/-- A resource with deletion requested and no finalizer marker. -/
def resDelNoFin : Resource := ⟨false, [], []⟩

/-- A resource with deletion requested and the finalizer marker "fin". -/
def resDelFin : Resource := ⟨false, ["fin"], []⟩

/-- A StaticAccessKey bound to service account "sa-a". -/
def sakeyA : StaticAccessKey := ⟨"key", ⟨"sa-a"⟩⟩

/-- A StaticAccessKey bound to service account "sa-b". -/
def sakeyB : StaticAccessKey := ⟨"key", ⟨"sa-b"⟩⟩

/-- A decoder (for requests whose payloads are already typed objects) that
always succeeds. -/
def okDecode : RuntimeObject → Except String RuntimeObject := fun o => Except.ok o

/-- A decoder that always fails. -/
def failDecode : RuntimeObject → Except String RuntimeObject :=
  fun _ => Except.error "malformed payload"

end CloudConnectors

namespace CloudConnectors

/-- Claim C9: `mustBeFinalized` returns a nil error for every input
resource, so the error-propagation branch in `Reconcile` that checks
`mustBeFinalized`'s error is unreachable: on any loaded resource,
`Reconcile`'s outcome is fully determined by `mustBeFinalized`'s boolean
(finalize when true, forward walk when false), never by its error. -/
theorem c9_mustBeFinalized_nil_error (phases : List Phase)
    (finalizerName : String) (r : Resource) :
    (mustBeFinalized finalizerName r).2 = none ∧
    Reconcile phases finalizerName (GetResult.found r) =
      (if (mustBeFinalized finalizerName r).1 then toResult (finalize phases r)
       else toResult (phaseWalk phases 0 r)) :=
  ⟨rfl, rfl⟩

/-- Claim C6: a not-found load answer stops the invocation with the
no-retry result (`GetNeverResult`, no error) and no phase activity, while
any other load error is reported upward as a system fault
(`GetErroredResult`) for retry. -/
theorem c6_load_error_classification (phases : List Phase)
    (finalizerName : String) (msg : String) :
    Reconcile phases finalizerName (GetResult.notFound msg) =
      (ReconcileResult.never, []) ∧
    Reconcile phases finalizerName (GetResult.otherError msg) =
      (ReconcileResult.errored msg, []) :=
  ⟨rfl, rfl⟩

/-- Claim C7: an admission request whose operation kind is not create,
update or delete is answered with `admission.Errored(http.StatusBadRequest,
"invalid request operation: ...")`, with no decode attempt and no Validator
invocation. -/
theorem c7_unknown_operation_rejected {Raw Obj : Type}
    (decode : Raw → Except String Obj) (validator : Validator Obj)
    (s : String) (newPayload oldPayload : Raw) :
    Handle decode validator ⟨Operation.other s, newPayload, oldPayload⟩ =
      (AdmissionResponse.errored statusBadRequest
        ("invalid request operation: " ++ s), []) ∧
    ((Handle decode validator
        ⟨Operation.other s, newPayload, oldPayload⟩).2.any
      DispatchEvent.isValidatorCall) = false :=
  ⟨rfl, rfl⟩

/-- Claim C10: the SAKey validator accepts every well-typed create and
delete (nil error on any StaticAccessKey), and each of the three methods
returns the plain (non-ValidationError) cast error on an object of any
other type, which `handleValidationError` classifies as a server error
(500), never as a denial. -/
theorem c10_sakey_type_mismatch_classification (k : StaticAccessKey)
    (t : String) (o : RuntimeObject) :
    sakeyValidateCreation (RuntimeObject.staticAccessKey k) = none ∧
    sakeyValidateDeletion (RuntimeObject.staticAccessKey k) = none ∧
    sakeyValidateCreation (RuntimeObject.otherObject t) = some sakeyCastError ∧
    sakeyValidateDeletion (RuntimeObject.otherObject t) = some sakeyCastError ∧
    sakeyValidateUpdate (RuntimeObject.otherObject t) o = some sakeyCastError ∧
    sakeyValidateUpdate (RuntimeObject.staticAccessKey k)
      (RuntimeObject.otherObject t) = some sakeyCastError ∧
    sakeyCastError.isValidation = false ∧
    handleValidationError (some sakeyCastError) =
      AdmissionResponse.errored statusInternalServerError
        sakeyCastError.message ∧
    (∀ m, handleValidationError (some sakeyCastError) ≠
      AdmissionResponse.denied m) := by
  refine ⟨rfl, rfl, rfl, rfl, ?_, rfl, rfl, rfl, ?_⟩
  · cases o <;> rfl
  · intro m h
    exact absurd h (by simp [handleValidationError, sakeyCastError,
      GoError.isValidation, GoError.message])

/-- Witness for C10: on a concrete mistyped object the cast error is
classified as a 500 server error and is not a denial. -/
theorem c10_witness :
    sakeyValidateCreation (RuntimeObject.staticAccessKey sakeyA) = none ∧
    handleValidationError (some sakeyCastError) ≠
      AdmissionResponse.denied "object is not of the StaticAccessKey type" := by
  obtain ⟨h1, _, _, _, _, _, _, _, h9⟩ :=
    c10_sakey_type_mismatch_classification sakeyA "tag"
      (RuntimeObject.otherObject "tag")
  exact ⟨h1, h9 "object is not of the StaticAccessKey type"⟩

/-- Claim C4: when the payload decodes successfully, the dispatcher's
response is exactly `handleValidationError` applied to the Validator's
result, and that classification is: nil error allowed, a ValidationError
denied with the error's message verbatim as the reason, and any other
non-nil error a 500 server error carrying the message. -/
theorem c4_validator_result_classification {Raw Obj : Type}
    (decode : Raw → Except String Obj) (validator : Validator Obj)
    (req : AdmissionRequest Raw) :
    handleValidationError none = AdmissionResponse.allowed "" ∧
    (∀ m, handleValidationError (some (GoError.validation m)) =
      AdmissionResponse.denied m) ∧
    (∀ m, handleValidationError (some (GoError.plain m)) =
      AdmissionResponse.errored statusInternalServerError m) ∧
    (req.operation = Operation.create →
      ∀ obj, decode req.object = Except.ok obj →
        (Handle decode validator req).1 =
          handleValidationError (validator.validateCreation obj)) ∧
    (req.operation = Operation.update →
      ∀ obj old, decode req.object = Except.ok obj →
        decode req.oldObject = Except.ok old →
        (Handle decode validator req).1 =
          handleValidationError (validator.validateUpdate obj old)) ∧
    (req.operation = Operation.delete →
      ∀ obj, decode req.oldObject = Except.ok obj →
        (Handle decode validator req).1 =
          handleValidationError (validator.validateDeletion obj)) := by
  refine ⟨rfl, fun m => rfl, fun m => rfl, ?_, ?_, ?_⟩
  · intro hop obj hdec
    simp [Handle, hop, hdec]
  · intro hop obj old hdec hdecOld
    simp [Handle, hop, hdec, hdecOld]
  · intro hop obj hdec
    simp [Handle, hop, hdec]

/-- Claim C5: the dispatcher decodes exactly the payloads appropriate to
the operation kind — create: the new object only; update: the new then the
old object; delete: the old object only — and on any decode failure it
responds `admission.Errored(http.StatusBadRequest, ...)` with a trace of
decode attempts only, so the Validator is never invoked. -/
theorem c5_decode_per_operation {Raw Obj : Type}
    (decode : Raw → Except String Obj) (validator : Validator Obj)
    (req : AdmissionRequest Raw) :
    (req.operation = Operation.create →
      ∀ e, decode req.object = Except.error e →
        Handle decode validator req =
          (AdmissionResponse.errored statusBadRequest e,
           [DispatchEvent.decodeAttempt req.object])) ∧
    (req.operation = Operation.create →
      ∀ obj, decode req.object = Except.ok obj →
        (Handle decode validator req).2 =
          [DispatchEvent.decodeAttempt req.object,
           DispatchEvent.validateCreationCall]) ∧
    (req.operation = Operation.update →
      ∀ e, decode req.object = Except.error e →
        Handle decode validator req =
          (AdmissionResponse.errored statusBadRequest e,
           [DispatchEvent.decodeAttempt req.object])) ∧
    (req.operation = Operation.update →
      ∀ obj e, decode req.object = Except.ok obj →
        decode req.oldObject = Except.error e →
        Handle decode validator req =
          (AdmissionResponse.errored statusBadRequest e,
           [DispatchEvent.decodeAttempt req.object,
            DispatchEvent.decodeAttempt req.oldObject])) ∧
    (req.operation = Operation.update →
      ∀ obj old, decode req.object = Except.ok obj →
        decode req.oldObject = Except.ok old →
        (Handle decode validator req).2 =
          [DispatchEvent.decodeAttempt req.object,
           DispatchEvent.decodeAttempt req.oldObject,
           DispatchEvent.validateUpdateCall]) ∧
    (req.operation = Operation.delete →
      ∀ e, decode req.oldObject = Except.error e →
        Handle decode validator req =
          (AdmissionResponse.errored statusBadRequest e,
           [DispatchEvent.decodeAttempt req.oldObject])) ∧
    (req.operation = Operation.delete →
      ∀ obj, decode req.oldObject = Except.ok obj →
        (Handle decode validator req).2 =
          [DispatchEvent.decodeAttempt req.oldObject,
           DispatchEvent.validateDeletionCall]) := by
  refine ⟨?_, ?_, ?_, ?_, ?_, ?_, ?_⟩
  · intro hop e hdec
    simp [Handle, hop, hdec]
  · intro hop obj hdec
    simp [Handle, hop, hdec]
  · intro hop e hdec
    simp [Handle, hop, hdec]
  · intro hop obj e hdec hdecOld
    simp [Handle, hop, hdec, hdecOld]
  · intro hop obj old hdec hdecOld
    simp [Handle, hop, hdec, hdecOld]
  · intro hop e hdec
    simp [Handle, hop, hdec]
  · intro hop obj hdec
    simp [Handle, hop, hdec]

/-- Witness for C5: a delete request whose payload fails to decode is
answered with a 400 client error after a single decode attempt, hence
without invoking the Validator. -/
theorem c5_witness :
    Handle failDecode SAKeyValidator
      ⟨Operation.delete, RuntimeObject.staticAccessKey sakeyA,
        RuntimeObject.otherObject "raw-old"⟩ =
      (AdmissionResponse.errored statusBadRequest "malformed payload",
       [DispatchEvent.decodeAttempt (RuntimeObject.otherObject "raw-old")]) :=
  (c5_decode_per_operation failDecode SAKeyValidator
      ⟨Operation.delete, RuntimeObject.staticAccessKey sakeyA,
        RuntimeObject.otherObject "raw-old"⟩).2.2.2.2.2.1 rfl
    "malformed payload" rfl

/-- Claim C8: on two StaticAccessKey objects, ValidateUpdate returns a
ValidationError exactly when the new Spec.ServiceAccountID differs from
the old one, with a message naming the old and the new value; through the
dispatcher, such an update is denied with exactly that message, while an
update leaving the field unchanged is allowed. -/
theorem c8_sakey_immutable_service_account {Raw : Type}
    (current old : StaticAccessKey)
    (decode : Raw → Except String RuntimeObject)
    (req : AdmissionRequest Raw) :
    ((∃ m, sakeyValidateUpdate (RuntimeObject.staticAccessKey current)
        (RuntimeObject.staticAccessKey old) = some (GoError.validation m)) ↔
      current.spec.serviceAccountID ≠ old.spec.serviceAccountID) ∧
    (current.spec.serviceAccountID ≠ old.spec.serviceAccountID →
      sakeyValidateUpdate (RuntimeObject.staticAccessKey current)
          (RuntimeObject.staticAccessKey old) =
        some (GoError.validation
          ("binded service account must be immutable, was changed from "
            ++ old.spec.serviceAccountID ++ " to "
            ++ current.spec.serviceAccountID))) ∧
    (current.spec.serviceAccountID = old.spec.serviceAccountID →
      sakeyValidateUpdate (RuntimeObject.staticAccessKey current)
          (RuntimeObject.staticAccessKey old) = none) ∧
    (req.operation = Operation.update →
      decode req.object = Except.ok (RuntimeObject.staticAccessKey current) →
      decode req.oldObject = Except.ok (RuntimeObject.staticAccessKey old) →
      (current.spec.serviceAccountID ≠ old.spec.serviceAccountID →
        (Handle decode SAKeyValidator req).1 =
          AdmissionResponse.denied
            ("binded service account must be immutable, was changed from "
              ++ old.spec.serviceAccountID ++ " to "
              ++ current.spec.serviceAccountID)) ∧
      (current.spec.serviceAccountID = old.spec.serviceAccountID →
        (Handle decode SAKeyValidator req).1 =
          AdmissionResponse.allowed "")) := by
  refine ⟨?_, ?_, ?_, ?_⟩
  · constructor
    · rintro ⟨m, hm⟩ heq
      simp [sakeyValidateUpdate, heq] at hm
    · intro hne
      exact ⟨"binded service account must be immutable, was changed from "
          ++ old.spec.serviceAccountID ++ " to "
          ++ current.spec.serviceAccountID,
        by simp [sakeyValidateUpdate, hne]⟩
  · intro hne
    simp [sakeyValidateUpdate, hne]
  · intro heq
    simp [sakeyValidateUpdate, heq]
  · intro hop hdec hdecOld
    constructor
    · intro hne
      simp [Handle, hop, hdec, hdecOld, SAKeyValidator, sakeyValidateUpdate,
        hne, handleValidationError, GoError.isValidation, GoError.message]
    · intro heq
      simp [Handle, hop, hdec, hdecOld, SAKeyValidator, sakeyValidateUpdate,
        heq, handleValidationError]

/-- Witness for C8: an update request changing the bound service account
from "sa-a" to "sa-b" is denied with the exact field-change message. -/
theorem c8_witness :
    (Handle okDecode SAKeyValidator
      ⟨Operation.update, RuntimeObject.staticAccessKey sakeyB,
        RuntimeObject.staticAccessKey sakeyA⟩).1 =
      AdmissionResponse.denied
        "binded service account must be immutable, was changed from sa-a to sa-b" := by
  have h := ((c8_sakey_immutable_service_account sakeyB sakeyA okDecode
      ⟨Operation.update, RuntimeObject.staticAccessKey sakeyB,
        RuntimeObject.staticAccessKey sakeyA⟩).2.2.2 rfl rfl rfl).1
      (by decide)
  rw [h]
  rfl

/-- Shape of the cleanup trace produced by `finalizeAux`: starting at Go
index `i`, the trace is the contiguous descending index block from `i - 1`
down to some `j`; on full success `j = 0` (every phase cleaned), and on an
error `j` is the failing phase's index (`j < i`) and the reported message
is the failing cleanup's error wrapped as "error during finalization:". -/
theorem finalizeAux_trace_shape (phases : List Phase) :
    ∀ (i : Nat) (r : Resource), i ≤ phases.length →
      ∃ j, j ≤ i ∧
        (finalizeAux phases i r).2 =
          (List.range' j (i - j)).reverse.map PhaseEvent.cleanupCall ∧
        (∀ r', (finalizeAux phases i r).1 = Except.ok r' → j = 0) ∧
        (∀ e, (finalizeAux phases i r).1 = Except.error e →
          j < i ∧ ∃ inner, e = "error during finalization: " ++ inner) := by
  intro i
  induction i with
  | zero =>
    intro r _
    exact ⟨0, Nat.le_refl 0, rfl, fun _ _ => rfl,
      fun e he => by simp [finalizeAux] at he⟩
  | succ i ih =>
    intro r hle
    have hi : i < phases.length := hle
    have hget : phases[i]? = some phases[i] := List.getElem?_eq_getElem hi
    cases hcl : (phases[i]).cleanup r with
    | error e =>
      refine ⟨i, Nat.le_succ i, ?_, ?_, ?_⟩
      · simp only [finalizeAux, hget, hcl]
        have h1 : i + 1 - i = 1 := by omega
        rw [h1]
        simp [List.range']
      · intro r' h
        simp only [finalizeAux, hget, hcl] at h
        exact Except.noConfusion h
      · intro e' he
        simp only [finalizeAux, hget, hcl, Except.error.injEq] at he
        exact ⟨Nat.lt_succ_self i, e, he.symm⟩
    | ok r1 =>
      obtain ⟨j, hj, htr, hok, herr⟩ := ih r1 (Nat.le_of_succ_le hle)
      refine ⟨j, Nat.le_succ_of_le hj, ?_, ?_, ?_⟩
      · simp only [finalizeAux, hget, hcl]
        rw [htr]
        have h1 : i + 1 - j = (i - j) + 1 := by omega
        have h2 : j + (i - j) = i := by omega
        rw [h1, List.range'_1_concat, h2]
        simp
      · intro r' h
        simp only [finalizeAux, hget, hcl] at h
        exact hok r' h
      · intro e he
        simp only [finalizeAux, hget, hcl] at he
        obtain ⟨hlt, inner, hinner⟩ := herr e he
        exact ⟨Nat.lt_succ_of_lt hlt, inner, hinner⟩

/-- Claim C3: on a resource with deletion requested and the finalizer
marker present, `Reconcile` finalizes: cleanup runs over the phases in
exact reverse configured order without skipping (the trace is the
contiguous descending block of indices from the last phase down to some
`j`), reaching index 0 on success, stopping at the first failing phase
otherwise and reporting the wrapped cleanup error as a system fault
(`GetErroredResult`); in particular for a 2-phase sequence the second
phase's cleanup always runs strictly before the first phase's. -/
theorem c3_finalization_reverse_order (phases : List Phase)
    (finalizerName : String) (r : Resource)
    (hdel : r.deletionTimestampIsZero = false)
    (hfin : containsString r.finalizers finalizerName = true) :
    ∃ j, j ≤ phases.length ∧
      (Reconcile phases finalizerName (GetResult.found r)).2 =
        (List.range' j (phases.length - j)).reverse.map
          PhaseEvent.cleanupCall ∧
      ((Reconcile phases finalizerName (GetResult.found r)).1 =
        ReconcileResult.normal → j = 0) ∧
      (∀ e, (Reconcile phases finalizerName (GetResult.found r)).1 =
          ReconcileResult.errored e →
        j < phases.length ∧
          ∃ inner, e = "error during finalization: " ++ inner) ∧
      ((Reconcile phases finalizerName (GetResult.found r)).1 =
          ReconcileResult.normal ∨
        ∃ e, (Reconcile phases finalizerName (GetResult.found r)).1 =
          ReconcileResult.errored e) ∧
      (∀ pA pB, phases = [pA, pB] →
        (Reconcile phases finalizerName (GetResult.found r)).2 =
          [PhaseEvent.cleanupCall 1, PhaseEvent.cleanupCall 0] ∨
        (Reconcile phases finalizerName (GetResult.found r)).2 =
          [PhaseEvent.cleanupCall 1]) := by
  have hmust : mustBeFinalized finalizerName r = (true, none) := by
    simp [mustBeFinalized, hdel, hfin]
  have hrec : Reconcile phases finalizerName (GetResult.found r) =
      toResult (finalize phases r) := by
    simp [Reconcile, hmust]
  obtain ⟨j, hj, htr, hok, herr⟩ :=
    finalizeAux_trace_shape phases phases.length r (Nat.le_refl _)
  have htr' : (finalize phases r).2 =
      (List.range' j (phases.length - j)).reverse.map
        PhaseEvent.cleanupCall := htr
  have hok' : ∀ r', (finalize phases r).1 = Except.ok r' → j = 0 := hok
  have herr' : ∀ e, (finalize phases r).1 = Except.error e →
      j < phases.length ∧
        ∃ inner, e = "error during finalization: " ++ inner := herr
  rcases hfe : finalize phases r with ⟨res, ev⟩
  rw [hfe] at htr' hok' herr'
  simp only at htr' hok' herr'
  cases res with
  | ok rr =>
    have hj0 : j = 0 := hok' rr rfl
    subst hj0
    have hrec2 : Reconcile phases finalizerName (GetResult.found r) =
        (ReconcileResult.normal, ev) := by rw [hrec, hfe]; rfl
    refine ⟨0, Nat.zero_le _, ?_, fun _ => rfl, ?_, ?_, ?_⟩
    · rw [hrec2]; exact htr'
    · intro e he
      rw [hrec2] at he
      simp at he
    · left; rw [hrec2]
    · intro pA pB hp
      subst hp
      left
      rw [hrec2]
      rw [htr']
      rfl
  | error e =>
    have hrec2 : Reconcile phases finalizerName (GetResult.found r) =
        (ReconcileResult.errored e, ev) := by rw [hrec, hfe]; rfl
    obtain ⟨hlt, inner, hinner⟩ := herr' e rfl
    refine ⟨j, hj, ?_, ?_, ?_, ?_, ?_⟩
    · rw [hrec2]; exact htr'
    · intro hno
      rw [hrec2] at hno
      simp at hno
    · intro e' he'
      rw [hrec2] at he'
      simp only [Prod.fst, ReconcileResult.errored.injEq] at he'
      exact he' ▸ ⟨hlt, inner, hinner⟩
    · right; exact ⟨e, by rw [hrec2]⟩
    · intro pA pB hp
      subst hp
      have hj01 : j = 0 ∨ j = 1 := by
        simp only [List.length_cons, List.length_nil] at hlt
        omega
      rcases hj01 with hj0 | hj1
      · subst hj0
        left
        rw [hrec2, htr']
        rfl
      · subst hj1
        right
        rw [hrec2, htr']
        rfl

/-- Witness for C3: finalizing a two-phase sequence on a resource with
deletion requested and the "fin" marker cleans the second phase strictly
before the first. -/
theorem c3_witness :
    (Reconcile [phaseBehind, phaseBehind] "fin"
        (GetResult.found resDelFin)).2 =
      [PhaseEvent.cleanupCall 1, PhaseEvent.cleanupCall 0] := by
  obtain ⟨j, hj, htr, hok, herr, hor, h2⟩ :=
    c3_finalization_reverse_order [phaseBehind, phaseBehind] "fin"
      resDelFin rfl rfl
  have hj0 : j = 0 := hok (by decide)
  subst hj0
  rw [htr]
  rfl

/-- Counterexample to C1: on a live resource with two phases both not yet
converged and both applies succeeding, one single call to `Reconcile`
invokes both phases' `Update` — the trace holds two update calls, so "at
most one phase's apply is invoked per reconcile call" is false. -/
theorem c1_counterexample :
    (Reconcile [phaseBehind, phaseBehind] "fin"
        (GetResult.found resLive)).2 =
      [PhaseEvent.isUpdatedCall 0, PhaseEvent.updateCall 0,
       PhaseEvent.isUpdatedCall 1, PhaseEvent.updateCall 1] ∧
    ¬((Reconcile [phaseBehind, phaseBehind] "fin"
        (GetResult.found resLive)).2.countP PhaseEvent.isUpdateCall ≤ 1) :=
  ⟨rfl, by decide⟩

/-- Claim C1 as amended: the forward walk does not stop after a successful
apply — a phase whose `IsUpdated` is true is skipped and the walk
continues; a phase whose `IsUpdated` is false has `Update` invoked and, on
success, the walk likewise continues with the next phase (so several
phases' applies may run in one reconcile call); the walk stops early only
when an `IsUpdated` or `Update` call returns an error; and on a live
resource `Reconcile` runs exactly this walk. -/
theorem c1_forward_walk_stops_only_on_error (p : Phase)
    (ps phases : List Phase) (finalizerName : String) (i : Nat)
    (r r1 r2 : Resource) (e : String) :
    (p.isUpdated r = Except.ok (true, r1) →
      phaseWalk (p :: ps) i r =
        ((phaseWalk ps (i + 1) r1).1,
         PhaseEvent.isUpdatedCall i :: (phaseWalk ps (i + 1) r1).2)) ∧
    (p.isUpdated r = Except.ok (false, r1) → p.update r1 = Except.ok r2 →
      phaseWalk (p :: ps) i r =
        ((phaseWalk ps (i + 1) r2).1,
         PhaseEvent.isUpdatedCall i :: PhaseEvent.updateCall i ::
           (phaseWalk ps (i + 1) r2).2)) ∧
    (p.isUpdated r = Except.ok (false, r1) → p.update r1 = Except.error e →
      phaseWalk (p :: ps) i r =
        (Except.error e,
         [PhaseEvent.isUpdatedCall i, PhaseEvent.updateCall i])) ∧
    (p.isUpdated r = Except.error e →
      phaseWalk (p :: ps) i r =
        (Except.error e, [PhaseEvent.isUpdatedCall i])) ∧
    (r.deletionTimestampIsZero = true →
      Reconcile phases finalizerName (GetResult.found r) =
        toResult (phaseWalk phases 0 r)) := by
  refine ⟨?_, ?_, ?_, ?_, ?_⟩
  · intro hc
    simp [phaseWalk, hc]
  · intro hc hu
    simp [phaseWalk, hc, hu]
  · intro hc hu
    simp [phaseWalk, hc, hu]
  · intro hc
    simp [phaseWalk, hc]
  · intro hlive
    simp [Reconcile, mustBeFinalized, hlive]

/-- Witness for C1 (amended): on a live resource, a two-phase walk whose
first apply succeeds continues into the second phase within the same
call. -/
theorem c1_witness :
    phaseWalk [phaseBehind, phaseBehind] 0 resLive =
      (Except.ok resLive,
       [PhaseEvent.isUpdatedCall 0, PhaseEvent.updateCall 0,
        PhaseEvent.isUpdatedCall 1, PhaseEvent.updateCall 1]) := by
  have h := (c1_forward_walk_stops_only_on_error phaseBehind [phaseBehind]
      [] "fin" 0 resLive resLive resLive "e").2.1 rfl rfl
  rw [h]
  rfl

/-- Counterexample to C2: on a resource with deletion requested and no
finalizer marker, `Reconcile` does run phases — the one-phase walk's trace
records an `IsUpdated` call and an `Update` call, refuting "no phase's
isConverged, apply, or cleanup is invoked". -/
theorem c2_counterexample :
    resDelNoFin.deletionTimestampIsZero = false ∧
    containsString resDelNoFin.finalizers "fin" = false ∧
    (Reconcile [phaseBehind] "fin" (GetResult.found resDelNoFin)).2 =
      [PhaseEvent.isUpdatedCall 0, PhaseEvent.updateCall 0] ∧
    (Reconcile [phaseBehind] "fin" (GetResult.found resDelNoFin)).2 ≠ [] :=
  ⟨rfl, rfl, rfl, by decide⟩

/-- Claim C2 as amended: when deletion is requested but the finalizer
marker is absent, `Reconcile` merely skips finalization and proceeds with
the ordinary forward convergence walk, exactly as for a live resource (so
convergence phases may still be invoked on a deleting resource). -/
theorem c2_deletion_without_marker_runs_forward_walk (phases : List Phase)
    (finalizerName : String) (r : Resource)
    (hdel : r.deletionTimestampIsZero = false)
    (hfin : containsString r.finalizers finalizerName = false) :
    Reconcile phases finalizerName (GetResult.found r) =
      toResult (phaseWalk phases 0 r) := by
  simp [Reconcile, mustBeFinalized, hdel, hfin]

/-- Witness for C2 (amended): a deleting resource without the marker goes
through the forward walk and ends with the normal result. -/
theorem c2_witness :
    Reconcile [phaseBehind] "fin" (GetResult.found resDelNoFin) =
      (ReconcileResult.normal,
       [PhaseEvent.isUpdatedCall 0, PhaseEvent.updateCall 0]) := by
  rw [c2_deletion_without_marker_runs_forward_walk [phaseBehind] "fin"
    resDelNoFin rfl rfl]
  rfl

/-- Witness for C4: a create request for a StaticAccessKey, decoded by the
always-succeeding decoder, is allowed. -/
theorem c4_witness :
    (Handle okDecode SAKeyValidator
      ⟨Operation.create, RuntimeObject.staticAccessKey sakeyA,
        RuntimeObject.otherObject "x"⟩).1 = AdmissionResponse.allowed "" := by
  have h := (c4_validator_result_classification okDecode SAKeyValidator
      ⟨Operation.create, RuntimeObject.staticAccessKey sakeyA,
        RuntimeObject.otherObject "x"⟩).2.2.2.1 rfl
      (RuntimeObject.staticAccessKey sakeyA) rfl
  rw [h]
  rfl

end CloudConnectors
